import Mathlib

/-!
Shallow embedding of the synchronized multi-detector acquisition engine
(`odemis/acq/stream/_sync.py`).  Python floats are modelled by exact
rationals (`ℚ`); numpy arrays of positions by index functions; the
per-pixel retry loop, cancellation and data callbacks by explicit state
passing with event traces.
-/

namespace OdemisSync

/-- Region of interest: four ratios `(l, t, r, b)` over the emitter field. -/
structure ROI where
  l : ℚ
  t : ℚ
  r : ℚ
  b : ℚ

/-- Embeds `MultipleDetectorStream._getPixelSize`: pixel size from the repetition,
roi and FoV of the e-beam.  The source returns a single value, computed
from the X dimension (`phy_size_x / rep[0]`), with the Y value only logged;
the docstring states both dimensions are always the same. -/
def getPixelSize (epxs : ℚ × ℚ) (eshape : ℕ × ℕ) (roi : ROI) (rep : ℕ × ℕ) : ℚ :=
  let phySizeX : ℚ := (roi.r - roi.l) * epxs.1 * (eshape.1 : ℚ)
  phySizeX / (rep.1 : ℚ)

/-- Embeds `MultipleDetectorStream._get_center_pxs`: center and pixel size of the
entire data based on the top-left data acquired.  `tlPos`/`tlPxs` are the
`MD_POS`/`MD_PIXEL_SIZE` metadata of the first DataArray, `tlShape` its
shape as (X count, Y count) (numpy `shape[-1]`, `shape[-2]`).  Returns
(center, pxs). -/
def get_center_pxs (epxs : ℚ × ℚ) (eshape : ℕ × ℕ) (roi : ROI)
    (rep subShape : ℕ × ℕ) (tlPos tlPxs : ℚ × ℚ) (tlShape : ℕ × ℕ) :
    (ℚ × ℚ) × (ℚ × ℚ) :=
  let tl : ℚ × ℚ :=
    (tlPos.1 - (tlPxs.1 * ((tlShape.1 : ℚ) - 1)) / 2,
     tlPos.2 + (tlPxs.2 * ((tlShape.2 : ℚ) - 1)) / 2)
  let pxsx : ℚ := getPixelSize epxs eshape roi rep
  let pxs : ℚ × ℚ := (pxsx / (subShape.1 : ℚ), pxsx / (subShape.2 : ℚ))
  let trep : ℕ × ℕ := (rep.1 * subShape.1, rep.2 * subShape.2)
  ((tl.1 + (pxs.1 * ((trep.1 : ℚ) - 1)) / 2,
    tl.2 - (pxs.2 * ((trep.2 : ℚ) - 1)) / 2),
   pxs)

/-- Embeds `numpy.linspace(a, b, n)` evaluated at index `i`: for `n = 1` the single
sample is `a`, otherwise `a + i·(b−a)/(n−1)`. -/
def linspace (a b : ℚ) (n i : ℕ) : ℚ :=
  if n = 1 then a else a + (i : ℚ) * (b - a) / ((n : ℚ) - 1)

/-- Embeds `MultipleDetectorStream._getSpotPositions`: e-beam translation for grid
index `(iy, ix)` (Y is the slow/first index axis, X the fast axis, matching
the `(Y, X, 2)` numpy array of the source). -/
def getSpotPositions (roi : ROI) (rep : ℕ × ℕ) (eshape : ℕ × ℕ)
    (iy ix : ℕ) : ℚ × ℚ :=
  let width : ℚ × ℚ := (roi.r - roi.l, roi.b - roi.t)
  let pxs : ℚ × ℚ := (width.1 / (rep.1 : ℚ), width.2 / (rep.2 : ℚ))
  let lim0 : ℚ := roi.l + pxs.1 / 2
  let lim1 : ℚ := roi.t + pxs.2 / 2
  let lim2 : ℚ := roi.r - pxs.1 / 2
  let lim3 : ℚ := roi.b - pxs.2 / 2
  let limMain0 : ℚ := (eshape.1 : ℚ) * (lim0 - 1/2)
  let limMain1 : ℚ := (eshape.2 : ℚ) * (lim1 - 1/2)
  let limMain2 : ℚ := (eshape.1 : ℚ) * (lim2 - 1/2)
  let limMain3 : ℚ := (eshape.2 : ℚ) * (lim3 - 1/2)
  (linspace limMain0 limMain2 rep.1 ix, linspace limMain1 limMain3 rep.2 iy)

/-- Key algebraic fact about `linspace`: an affine map of the endpoints
commutes with the sampling. -/
lemma linspace_affine (s a b : ℚ) (n i : ℕ) :
    linspace (s * (a - 1/2)) (s * (b - 1/2)) n i
      = s * (linspace a b n i - 1/2) := by
  unfold linspace
  by_cases h : n = 1 <;> simp [h] <;> ring

/-- C1 helper: the center returned by `get_center_pxs` once the first
DataArray is a single point (flat 2-D assembly, `sub_shape = (1,1)`). -/
lemma center_flat (epxs : ℚ × ℚ) (eshape : ℕ × ℕ) (roi : ROI)
    (rep : ℕ × ℕ) (tlPos tlPxs : ℚ × ℚ) :
    (get_center_pxs epxs eshape roi rep (1, 1) tlPos tlPxs (1, 1)).1
      = (tlPos.1 + (getPixelSize epxs eshape roi rep) * ((rep.1 : ℚ) - 1) / 2,
         tlPos.2 - (getPixelSize epxs eshape roi rep) * ((rep.2 : ℚ) - 1) / 2) := by
  unfold get_center_pxs
  simp

/-- Embeds `MultipleDetectorStream._updateProgress`: update of the future's
estimated end time after one pixel.  Returns the new `_prog_sum` and the
new end time (`none` when no update is published). -/
def updateProgress (progSum now dur : ℚ) (current tot : ℕ) (bonus : ℚ) :
    ℚ × Option ℚ :=
  if current ≤ 1 then (progSum, none)
  else
    let ps : ℚ := progSum + dur
    let ratio : ℚ := ((tot : ℚ) - (current : ℚ)) / ((current : ℚ) - 1)
    let left : ℚ := ps * ratio
    let timeAssemble : ℚ := 0.001 * (tot : ℚ)
    let totLeft : ℚ := left + timeAssemble + bonus + 0.1
    (ps, some (now + totLeft))

/-- C1: for every assembled 2-D (first array a single point, `sub_shape
= (1,1)`) or tiled (square `ts × ts` tile with metadata pixel size matching
the derived sub-pixel size) image, the computed `MD_POS` equals the first
array's position plus `((rep−1)/2)·(px, −py)` with `px = py` the pixel size
re-derived from ROI and emitter geometry; the returned pixel-size metadata
is that derived value, never the hardware-reported `tlPxs`. -/
theorem C1_center_of_image (epxs : ℚ × ℚ) (eshape : ℕ × ℕ) (roi : ROI)
    (rep : ℕ × ℕ) (tlPos tlPxs : ℚ × ℚ) (s : ℕ) (hs : 0 < s) :
    (get_center_pxs epxs eshape roi rep (1, 1) tlPos tlPxs (1, 1)).1
        = (tlPos.1 + getPixelSize epxs eshape roi rep * ((rep.1 : ℚ) - 1) / 2,
           tlPos.2 - getPixelSize epxs eshape roi rep * ((rep.2 : ℚ) - 1) / 2)
    ∧ (get_center_pxs epxs eshape roi rep (1, 1) tlPos tlPxs (1, 1)).2
        = (getPixelSize epxs eshape roi rep, getPixelSize epxs eshape roi rep)
    ∧ (tlPxs = (getPixelSize epxs eshape roi rep / (s : ℚ),
                getPixelSize epxs eshape roi rep / (s : ℚ)) →
       (get_center_pxs epxs eshape roi rep (s, s) tlPos tlPxs (s, s)).1
          = (tlPos.1 + getPixelSize epxs eshape roi rep * ((rep.1 : ℚ) - 1) / 2,
             tlPos.2 - getPixelSize epxs eshape roi rep * ((rep.2 : ℚ) - 1) / 2)) := by
  have hsQ : ((s : ℚ)) ≠ 0 := Nat.cast_ne_zero.mpr hs.ne'
  refine ⟨center_flat epxs eshape roi rep tlPos tlPxs, ?_, ?_⟩
  · unfold get_center_pxs
    simp
  · intro hpxs
    unfold get_center_pxs
    subst hpxs
    simp only [Prod.mk.injEq]
    constructor
    · push_cast
      field_simp
      ring
    · push_cast
      field_simp
      ring

/-- C1 witness: the theorem instantiated at a concrete configuration. -/
theorem C1_center_of_image_witness :
    (get_center_pxs (1/1000, 1/1000) (16, 16) ⟨0, 0, 1, 1⟩ (2, 2) (1, 1)
        (5, 7) (1/125, 1/125) (1, 1)).1
      = (1251/250, 1749/250) := by
  have h := C1_center_of_image (1/1000, 1/1000) (16, 16) ⟨0, 0, 1, 1⟩ (2, 2)
    (5, 7) (1/125, 1/125) 2 (by norm_num)
  rw [h.1]
  norm_num [getPixelSize, Prod.ext_iff]

/-- C3: under the documented invariant that the X- and Y-derived pixel
sizes agree (valid ROI/repetition/emitter geometry), the pixel-size
metadata of an assembled flat image equals `ROI_width_x · FoV_x / rep_x`
along X and `ROI_width_y · FoV_y / rep_y` along Y, exactly (hence within
1e-12 relative), where FoV is emitter shape times emitter pixel size. -/
theorem C3_roundtrip_pixel_size (epxs : ℚ × ℚ) (eshape : ℕ × ℕ) (roi : ROI)
    (rep : ℕ × ℕ) (tlPos tlPxs : ℚ × ℚ)
    (hsq : (roi.r - roi.l) * epxs.1 * (eshape.1 : ℚ) / (rep.1 : ℚ)
         = (roi.b - roi.t) * epxs.2 * (eshape.2 : ℚ) / (rep.2 : ℚ)) :
    (get_center_pxs epxs eshape roi rep (1, 1) tlPos tlPxs (1, 1)).2
      = ((roi.r - roi.l) * ((eshape.1 : ℚ) * epxs.1) / (rep.1 : ℚ),
         (roi.b - roi.t) * ((eshape.2 : ℚ) * epxs.2) / (rep.2 : ℚ)) := by
  unfold get_center_pxs getPixelSize
  simp only [Prod.mk.injEq]
  constructor
  · simp
    ring
  · simp
    linear_combination hsq

/-- C3 witness: square configuration where the invariant holds. -/
theorem C3_roundtrip_pixel_size_witness :
    (get_center_pxs (1/1000, 1/1000) (16, 16) ⟨0, 0, 1, 1⟩ (2, 2) (1, 1) (0, 0)
        (0, 0) (1, 1)).2
      = (1/125, 1/125) := by
  have h := C3_roundtrip_pixel_size (1/1000, 1/1000) (16, 16) ⟨0, 0, 1, 1⟩ (2, 2)
    (0, 0) (0, 0) (by norm_num)
  rw [h]
  norm_num [Prod.ext_iff]

/-- C4: every sample of the beam grid is the emitter-centered translation
of the corresponding pixel-center fractional coordinate: the ROI is inset
by half a pixel (`w = (r−l)/rx`, `h = (b−t)/ry`) on each side, the points
are evenly spaced (`linspace`) between the inset limits, and `(u, v)` maps
to `(Sx·(u−1/2), Sy·(v−1/2))`, with Y the slow (first) index and X the
fast index. -/
theorem C4_spot_positions (roi : ROI) (rep eshape : ℕ × ℕ) (iy ix : ℕ)
    (hx : ix < rep.1) (hy : iy < rep.2) :
    getSpotPositions roi rep eshape iy ix
      = ((eshape.1 : ℚ) *
           (linspace (roi.l + (roi.r - roi.l) / (rep.1 : ℚ) / 2)
                     (roi.r - (roi.r - roi.l) / (rep.1 : ℚ) / 2) rep.1 ix - 1/2),
         (eshape.2 : ℚ) *
           (linspace (roi.t + (roi.b - roi.t) / (rep.2 : ℚ) / 2)
                     (roi.b - (roi.b - roi.t) / (rep.2 : ℚ) / 2) rep.2 iy - 1/2)) := by
  unfold getSpotPositions
  exact Prod.ext (linspace_affine _ _ _ _ _) (linspace_affine _ _ _ _ _)

/-- C4 witness: a 3×2 grid point evaluated concretely. -/
theorem C4_spot_positions_witness :
    getSpotPositions ⟨0, 0, 1, 1⟩ (3, 2) (12, 12) 1 2
      = ((12 : ℚ) * (linspace (0 + 1/(3:ℚ)/2) (1 - 1/(3:ℚ)/2) 3 2 - 1/2),
         (12 : ℚ) * (linspace (0 + 1/(2:ℚ)/2) (1 - 1/(2:ℚ)/2) 2 1 - 1/2)) := by
  have h := C4_spot_positions ⟨0, 0, 1, 1⟩ (3, 2) (12, 12) 1 2
    (by norm_num) (by norm_num)
  simpa using h

/-- C9: the progress update leaves the estimated end time unchanged for
`current ≤ 1`, and for `current > 1` publishes
`now + sum_durations · (tot − current)/(current − 1) + 0.001·tot + bonus
+ 0.1`, where the sum of recorded durations includes the current one. -/
theorem C9_progress_update (progSum now dur : ℚ) (current tot : ℕ) (bonus : ℚ) :
    (current ≤ 1 → updateProgress progSum now dur current tot bonus
        = (progSum, none))
    ∧ (1 < current → updateProgress progSum now dur current tot bonus
        = (progSum + dur,
           some (now + ((progSum + dur) * (((tot : ℚ) - (current : ℚ)) / ((current : ℚ) - 1))
                 + 0.001 * (tot : ℚ) + bonus + 0.1)))) := by
  constructor
  · intro h
    simp [updateProgress, h]
  · intro h
    simp [updateProgress, Nat.not_le.mpr h, h.not_le]

/-- C9 witness: update at `current = 3, tot = 10`. -/
theorem C9_progress_update_witness :
    updateProgress 2 100 1 3 10 5
      = (3, some (100 + (3 * (((10 : ℚ) - 3) / ((3 : ℚ) - 1)) + 0.001 * 10 + 5 + 0.1))) := by
  have h := (C9_progress_update 2 100 1 3 10 5).2 (by norm_num)
  norm_num at h ⊢
  exact h

/-- Per-detector state shared between the worker and the data callback:
the accumulator `_acq_data[n]` and the completion event `_acq_complete[n]`. -/
structure DetState (α : Type) where
  acqData : List α
  complete : Bool
  deriving DecidableEq

/-- Effects of one `_onData` call: the new detector state, whether a
stale-data warning was logged, and whether the camera trigger was
re-notified (the source deliberately never does: the notify is commented
out). -/
structure OnDataResult (α : Type) where
  st : DetState α
  warnedStale : Bool
  notifiedTrigger : Bool
  deriving DecidableEq

/-- Embeds `MultipleDetectorStream._onData`: drop the sample with a warning when
its acquisition date (defaulting to 0 when absent) predates
`_acq_min_date`; otherwise store it only if the completion event is not
yet set, and set the event. -/
def onData (acqMinDate : ℚ) (acqDate : Option ℚ) (d : α) (st : DetState α) :
    OnDataResult α :=
  if acqMinDate > acqDate.getD 0 then ⟨st, true, false⟩
  else if st.complete then ⟨st, false, false⟩
  else ⟨⟨st.acqData ++ [d], true⟩, false, false⟩

/-- Folding `_onData` over a sequence of received samples. -/
def processAll (acqMinDate : ℚ) (samples : List (Option ℚ × α))
    (st : DetState α) : DetState α :=
  samples.foldl (fun s p => (onData acqMinDate p.1 p.2 s).st) st

lemma onData_of_complete (acqMinDate : ℚ) (acqDate : Option ℚ) (d : α)
    (st : DetState α) (h : st.complete = true) :
    (onData acqMinDate acqDate d st).st = st := by
  unfold onData
  by_cases hs : acqMinDate > acqDate.getD 0 <;> simp [hs, h]

lemma processAll_of_complete (acqMinDate : ℚ) (samples : List (Option ℚ × α))
    (st : DetState α) (h : st.complete = true) :
    processAll acqMinDate samples st = st := by
  induction samples with
  | nil => rfl
  | cons p rest ih =>
      unfold processAll
      rw [List.foldl_cons, onData_of_complete _ _ _ _ h]
      exact ih

lemma onData_st_cases (m : ℚ) (dt : Option ℚ) (d : α) (st : DetState α) :
    (onData m dt d st).st = st
    ∨ (st.complete = false
       ∧ (onData m dt d st).st = ⟨st.acqData ++ [d], true⟩) := by
  unfold onData
  by_cases hs : m > dt.getD 0
  · left
    simp [hs]
  · by_cases hc : st.complete
    · left
      simp [hs, hc]
    · right
      exact ⟨by simpa using hc, by simp [hs, hc]⟩

/-- C7: a sample whose acquisition date is strictly earlier than the
`t_start` of the current pixel is discarded with a warning: the
accumulator and completion event are unchanged, and the camera trigger is
not re-notified. -/
theorem C7_stale_data_dropped (acqMinDate : ℚ) (acqDate : Option ℚ) (d : α)
    (st : DetState α) (h : acqDate.getD 0 < acqMinDate) :
    onData acqMinDate acqDate d st = ⟨st, true, false⟩ := by
  unfold onData
  simp [h]

/-- C7 witness: a concrete stale sample (date 1 before `t_start` 2). -/
theorem C7_stale_data_dropped_witness :
    onData (α := ℕ) 2 (some 1) 42 ⟨[], false⟩ = ⟨⟨[], false⟩, true, false⟩ :=
  C7_stale_data_dropped 2 (some 1) 42 ⟨[], false⟩ (by norm_num)

/-- C10: within one pixel (between two clears of the completion event)
the callback appends at most one sample: starting from a cleared event the
accumulator grows by at most one over any sequence of samples; the first
accepted (non-stale) sample appends and sets the event; and any sequence
arriving while the event is set leaves the state unchanged. -/
theorem C10_at_most_one_append (acqMinDate : ℚ)
    (samples : List (Option ℚ × α)) (st : DetState α) :
    (st.complete = true → processAll acqMinDate samples st = st)
    ∧ (processAll acqMinDate samples st).acqData.length
        ≤ st.acqData.length + (if st.complete then 0 else 1)
    ∧ (∀ (acqDate : Option ℚ) (d : α), st.complete = false →
        acqMinDate ≤ acqDate.getD 0 →
        onData acqMinDate acqDate d st = ⟨⟨st.acqData ++ [d], true⟩, false, false⟩) := by
  refine ⟨processAll_of_complete acqMinDate samples st, ?_, ?_⟩
  · induction samples generalizing st with
    | nil =>
        simp only [processAll, List.foldl_nil]
        split <;> omega
    | cons p rest ih =>
        unfold processAll
        rw [List.foldl_cons]
        rcases onData_st_cases acqMinDate p.1 p.2 st with h | ⟨hc, h⟩
        · rw [h]
          exact ih st
        · rw [h]
          have h2 := processAll_of_complete acqMinDate rest
            (⟨st.acqData ++ [p.2], true⟩ : DetState α) rfl
          unfold processAll at h2
          rw [h2]
          simp [hc]
  · intro acqDate d hc hdate
    unfold onData
    simp [hc, not_lt.mpr hdate]

/-- C10 witness: with a cleared event, a first in-date sample is appended
and sets the event. -/
theorem C10_at_most_one_append_witness :
    onData (α := ℕ) 0 (some 1) 5 ⟨[], false⟩ = ⟨⟨[5], true⟩, false, false⟩ := by
  have h := (C10_at_most_one_append (α := ℕ) 0 [] ⟨[], false⟩).2.2
    (some 1) 5 rfl (by norm_num)
  simpa using h

/-- Acquisition state machine values (`_acq_state`). -/
inductive AcqStatus
  | idle
  | running
  | cancelled
  | finished
  deriving DecidableEq

/-- Effects performed by `_cancelAcquisition` after flipping the state.
`setSyncNone i` is `synchronizedOn(None)` called on stream `i`'s
dataflow. -/
inductive CancelEvent
  | unsubscribe (i : ℕ)
  | setSyncNone (i : ℕ)
  | setCompleteEvent (i : ℕ)
  | waitWorker (timeout : ℚ)
  deriving DecidableEq

/-- Embeds `MultipleDetectorStream._cancelAcquisition`: under the acquisition
lock, return `false` if already `FINISHED`; otherwise set `CANCELLED`,
unsubscribe every stream's dataflow, call `synchronizedOn(None)` on
`_df0` — the FIRST stream's dataflow, i.e. the SEM detector's in
`SEMCCDMDStream`, while the camera's `_ccd_df` (the last stream's
dataflow, the one synchronized on the trigger) keeps its synchronization
until the worker's own teardown — set every per-detector completion
event, and wait up to 5 s for the worker.  Returns (result, new state,
effects). -/
def cancelAcquisition (st : AcqStatus) (nStreams : ℕ) :
    Bool × AcqStatus × List CancelEvent :=
  if st = .finished then (false, st, [])
  else (true, .cancelled,
    ((List.range nStreams).map CancelEvent.unsubscribe)
      ++ [CancelEvent.setSyncNone 0]
      ++ ((List.range nStreams).map CancelEvent.setCompleteEvent)
      ++ [CancelEvent.waitWorker 5])

/-- C6 counterexample: cancelling a running 2-stream (SEM + camera)
acquisition unsynchronizes stream 0 — the SEM detector's dataflow `_df0`
— and does NOT unsynchronize stream 1, the camera (last stream), whose
dataflow is the one synchronized on the software trigger.  The claim's
"removes the camera synchronization" is false of the code. -/
theorem C6_counterexample :
    (cancelAcquisition .running 2).1 = true
    ∧ CancelEvent.setSyncNone 0 ∈ (cancelAcquisition .running 2).2.2
    ∧ CancelEvent.setSyncNone 1 ∉ (cancelAcquisition .running 2).2.2 := by
  refine ⟨rfl, ?_, ?_⟩
  · simp [cancelAcquisition, List.range_succ]
  · simp [cancelAcquisition, List.range_succ]

/-- C6 amended: cancelling a `FINISHED` acquisition returns `false` with
no state change and no effects; cancelling in any other state returns
`true`, sets `CANCELLED`, unsubscribes every dataflow, removes the
synchronization of the first (SEM) stream's dataflow only — the camera's
dataflow keeps its synchronization until the worker's teardown — sets
every completion event, and waits 5 s for the worker. -/
theorem C6_cancellation (st : AcqStatus) (nStreams : ℕ) :
    (cancelAcquisition .finished nStreams = (false, .finished, []))
    ∧ (st ≠ .finished →
        cancelAcquisition st nStreams = (true, .cancelled,
          ((List.range nStreams).map CancelEvent.unsubscribe)
            ++ [CancelEvent.setSyncNone 0]
            ++ ((List.range nStreams).map CancelEvent.setCompleteEvent)
            ++ [CancelEvent.waitWorker 5])
        ∧ (∀ i < nStreams,
            CancelEvent.setCompleteEvent i ∈ (cancelAcquisition st nStreams).2.2
            ∧ CancelEvent.unsubscribe i ∈ (cancelAcquisition st nStreams).2.2)
        ∧ (∀ i, 0 < i →
            CancelEvent.setSyncNone i ∉ (cancelAcquisition st nStreams).2.2)) := by
  constructor
  · simp [cancelAcquisition]
  · intro h
    have he : (cancelAcquisition st nStreams).2.2
        = ((List.range nStreams).map CancelEvent.unsubscribe)
            ++ [CancelEvent.setSyncNone 0]
            ++ ((List.range nStreams).map CancelEvent.setCompleteEvent)
            ++ [CancelEvent.waitWorker 5] := by
      simp [cancelAcquisition, h]
    refine ⟨by simp [cancelAcquisition, h], ?_, ?_⟩
    · intro i hi
      have hmem1 : CancelEvent.setCompleteEvent i
          ∈ (List.range nStreams).map CancelEvent.setCompleteEvent :=
        List.mem_map.mpr ⟨i, List.mem_range.mpr hi, rfl⟩
      have hmem2 : CancelEvent.unsubscribe i
          ∈ (List.range nStreams).map CancelEvent.unsubscribe :=
        List.mem_map.mpr ⟨i, List.mem_range.mpr hi, rfl⟩
      rw [he]
      exact ⟨List.mem_append_left _ (List.mem_append_right _ hmem1),
             List.mem_append_left _ (List.mem_append_left _ (List.mem_append_left _ hmem2))⟩
    · intro i hi
      rw [he]
      simp
      omega

/-- C6 witness: cancelling a running acquisition with 2 streams. -/
theorem C6_cancellation_witness :
    cancelAcquisition .running 2 = (true, .cancelled,
      [CancelEvent.unsubscribe 0, CancelEvent.unsubscribe 1,
       CancelEvent.setSyncNone 0,
       CancelEvent.setCompleteEvent 0, CancelEvent.setCompleteEvent 1,
       CancelEvent.waitWorker 5]) := by
  have h := ((C6_cancellation .running 2).2 (by simp)).1
  rw [h]
  rfl

/-- The retry condition of the CameraSync per-pixel loop
(`SEMCCDMDStream._runAcquisition`): a failure is counted iff the camera
wait timed out or the elapsed time is below 95% of the per-pixel budget
`rep_time`. -/
def attemptFailed (timedout : Bool) (dur repTime : ℚ) : Bool :=
  timedout || decide (dur < repTime * 0.95)

/-- Observable actions of the per-pixel retry loop. -/
inductive PixelEvent
  | unsubscribeAll
  | truncateAccumulators (n : ℕ)
  | sleepOneSecond
  | resubscribeCamera
  | storeData
  deriving DecidableEq

/-- All per-detector accumulators (`_acq_data`). -/
structure AcqBuffers (α : Type) where
  acqData : List (List α)
  deriving DecidableEq

/-- Embeds `ad[:] = ad[:n]` applied to every accumulator: keep only the `n`
already-valid pixels. -/
def truncateBuffers (bufs : AcqBuffers α) (n : ℕ) : AcqBuffers α :=
  ⟨bufs.acqData.map (fun l => l.take n)⟩

inductive PixelOutcome
  | ok
  | syncFailure
  deriving DecidableEq

/-- The retry loop of one pixel in `SEMCCDMDStream._runAcquisition`
(`while True` at the heart of the per-pixel protocol).  `failed a` tells
whether the `a`-th try of this pixel failed (camera wait timed out or
returned too fast); `n` is the number of already-valid pixels.  On a
failure the counter is incremented; on the third failure the acquisition
fails (`IOError`, the spec's `SyncFailure`); otherwise all dataflows are
unsubscribed, every accumulator is truncated back to `n`, the worker
sleeps 1 s, re-subscribes the camera and retries the same pixel. -/
def pixelLoopAux (failed : ℕ → Bool) (attempt failures n : ℕ)
    (bufs : AcqBuffers α) : PixelOutcome × AcqBuffers α × List PixelEvent :=
  if failed attempt then
    if 3 ≤ failures + 1 then (.syncFailure, bufs, [])
    else
      let bufs2 := truncateBuffers bufs n
      let rec2 := pixelLoopAux failed (attempt + 1) (failures + 1) n bufs2
      (rec2.1, rec2.2.1,
        [PixelEvent.unsubscribeAll, PixelEvent.truncateAccumulators n,
         PixelEvent.sleepOneSecond, PixelEvent.resubscribeCamera] ++ rec2.2.2)
  else (.ok, bufs, [PixelEvent.storeData])
termination_by 3 - failures
decreasing_by omega

/-- One pixel of the CameraSync loop, starting with zero failures. -/
def pixelLoop (failed : ℕ → Bool) (n : ℕ) (bufs : AcqBuffers α) :
    PixelOutcome × AcqBuffers α × List PixelEvent :=
  pixelLoopAux failed 0 0 n bufs

/-- C2: (i) a failure is counted exactly when the wait timed out or the
elapsed time is under `0.95 · t_pix`; (ii) each non-final failure
unsubscribes all dataflows, truncates every accumulator back to the `n`
valid pixels, sleeps 1 s, re-subscribes the camera and retries the same
pixel with the failure counter incremented; (iii) two misses followed by a
hit still complete the pixel; (iv) three misses fail with `SyncFailure`. -/
theorem C2_retry_bound (timedout : Bool) (dur repTime : ℚ)
    (failed : ℕ → Bool) (n : ℕ) (bufs : AcqBuffers α) :
    (attemptFailed timedout dur repTime = true
       ↔ (timedout = true ∨ dur < repTime * 0.95))
    ∧ (∀ attempt failures, failures + 1 < 3 → failed attempt = true →
        pixelLoopAux failed attempt failures n bufs =
          ((pixelLoopAux failed (attempt + 1) (failures + 1) n
              (truncateBuffers bufs n)).1,
           (pixelLoopAux failed (attempt + 1) (failures + 1) n
              (truncateBuffers bufs n)).2.1,
           [PixelEvent.unsubscribeAll, PixelEvent.truncateAccumulators n,
            PixelEvent.sleepOneSecond, PixelEvent.resubscribeCamera]
             ++ (pixelLoopAux failed (attempt + 1) (failures + 1) n
                  (truncateBuffers bufs n)).2.2))
    ∧ (failed 0 = true → failed 1 = true → failed 2 = false →
        (pixelLoop failed n bufs).1 = .ok)
    ∧ (failed 0 = true → failed 1 = true → failed 2 = true →
        (pixelLoop failed n bufs).1 = .syncFailure) := by
  refine ⟨?_, ?_, ?_, ?_⟩
  · simp [attemptFailed]
  · intro attempt failures hf ha
    rw [pixelLoopAux]
    simp [ha, Nat.not_le.mpr hf]
  · intro h0 h1 h2
    unfold pixelLoop
    rw [pixelLoopAux]
    simp only [h0, if_true]
    rw [if_neg (by omega)]
    rw [pixelLoopAux]
    simp only [h1, if_true]
    rw [if_neg (by omega)]
    rw [pixelLoopAux]
    simp [h2]
  · intro h0 h1 h2
    unfold pixelLoop
    rw [pixelLoopAux]
    simp only [h0, if_true]
    rw [if_neg (by omega)]
    rw [pixelLoopAux]
    simp only [h1, if_true]
    rw [if_neg (by omega)]
    rw [pixelLoopAux]
    simp [h2]

/-- C2 witness: a detector missing the first two triggers still completes;
one missing the first three fails with `SyncFailure`. -/
theorem C2_retry_bound_witness :
    (pixelLoop (α := ℕ) (fun a => decide (a < 2)) 1 ⟨[[7, 8]]⟩).1 = .ok
    ∧ (pixelLoop (α := ℕ) (fun _ => true) 1 ⟨[[7, 8]]⟩).1 = .syncFailure := by
  constructor
  · exact (C2_retry_bound false 0 0 (fun a => decide (a < 2)) 1 ⟨[[7, 8]]⟩).2.2.1
      (by decide) (by decide) (by decide)
  · exact (C2_retry_bound false 0 0 (fun _ => true) 1 ⟨[[7, 8]]⟩).2.2.2
      rfl rfl rfl

/-- Valid ranges of the scan stage's `x` and `y` axes
(`sstage.axes["x"].range`, `…["y"].range`). -/
structure StageAxes where
  xlo : ℚ
  xhi : ℚ
  ylo : ℚ
  yhi : ℚ
  deriving DecidableEq

/-- The target box `lim_main = (x_left, y_top, x_right, y_bottom)` of
`_getScanStagePositions` (Y decreases from `y0` to `y1`). -/
structure StageBox where
  x0 : ℚ
  y0 : ℚ
  x1 : ℚ
  y1 : ℚ
  deriving DecidableEq

/-- Embeds the box computation of `MultipleDetectorStream._getScanStagePositions`: the
ROI inset by half a pixel is converted to physical shifts over the emitter
FoV, with the stage Y axis inverted relative to the (image) ROI, anchored
at the current stage position `(sposx, sposy)`. -/
def scanStageBox (roi : ROI) (rep eshape : ℕ × ℕ) (epxs : ℚ × ℚ)
    (sposx sposy : ℚ) : StageBox :=
  let width : ℚ × ℚ := (roi.r - roi.l, roi.b - roi.t)
  let pxs : ℚ × ℚ := (width.1 / (rep.1 : ℚ), width.2 / (rep.2 : ℚ))
  let lim0 : ℚ := roi.l + pxs.1 / 2
  let lim1 : ℚ := roi.t + pxs.2 / 2
  let lim2 : ℚ := roi.r - pxs.1 / 2
  let lim3 : ℚ := roi.b - pxs.2 / 2
  let semFov : ℚ × ℚ := ((eshape.1 : ℚ) * epxs.1, (eshape.2 : ℚ) * epxs.2)
  let phyShift : ℚ × ℚ := (semFov.1 * (1/2 - lim0), -(semFov.2 * (1/2 - lim1)))
  let phyWidth : ℚ × ℚ := (semFov.1 * (lim2 - lim0), semFov.2 * (lim3 - lim1))
  let spos0 : ℚ × ℚ := (sposx - phyShift.1, sposy - phyShift.2)
  ⟨spos0.1, spos0.2, spos0.1 + phyWidth.1, spos0.2 - phyWidth.2⟩

/-- The range check of `_getScanStagePositions`:
`spos_rng[0] ≤ lim_main[0] ≤ lim_main[2] ≤ spos_rng[2]` and
`spos_rng[1] ≤ lim_main[3] ≤ lim_main[1] ≤ spos_rng[3]` (Y decreases). -/
def scanStageInRange (ax : StageAxes) (b : StageBox) : Bool :=
  decide (ax.xlo ≤ b.x0) && decide (b.x0 ≤ b.x1) && decide (b.x1 ≤ ax.xhi)
    && decide (ax.ylo ≤ b.y1) && decide (b.y1 ≤ b.y0) && decide (b.y0 ≤ ax.yhi)

inductive ScanStageError
  | outOfRange
  deriving DecidableEq

/-- Embeds `_getScanStagePositions`: the absolute stage position for grid index
`(ix, iy)`, or `OutOfRange` (`ValueError` in the source) when the target
box leaves the stage range. -/
def getScanStagePositions (roi : ROI) (rep eshape : ℕ × ℕ) (epxs : ℚ × ℚ)
    (ax : StageAxes) (sposx sposy : ℚ) :
    Except ScanStageError (ℕ → ℕ → ℚ × ℚ) :=
  let b := scanStageBox roi rep eshape epxs sposx sposy
  if scanStageInRange ax b then
    .ok (fun ix iy => (linspace b.x0 b.x1 rep.1 ix, linspace b.y0 b.y1 rep.2 iy))
  else
    .error .outOfRange

/-- Stage commands and pixel acquisitions observable from
`_runAcquisitionScanStage`. -/
inductive StageEvent
  | moveStage (x y : ℚ)
  | acquirePixel (ix iy : ℕ)
  deriving DecidableEq

/-- Embeds `SEMCCDMDStream._runAcquisitionScanStage` as a trace model (no drift
correction, no synchronization failures): the grid is computed first; on
success every grid position is visited (X fast) and acquired; in every
case the `finally` block parks the stage back at the center of its axis
range.  On a grid-computation error the park move is the only stage
command. -/
def runScanStage (roi : ROI) (rep eshape : ℕ × ℕ) (epxs : ℚ × ℚ)
    (ax : StageAxes) (sposx sposy : ℚ) :
    Except ScanStageError Unit × List StageEvent :=
  let park := StageEvent.moveStage ((ax.xlo + ax.xhi) / 2) ((ax.ylo + ax.yhi) / 2)
  match getScanStagePositions roi rep eshape epxs ax sposx sposy with
  | .error e => (.error e, [park])
  | .ok grid =>
      let pixelEvents := (List.range rep.2).bind (fun iy =>
        (List.range rep.1).bind (fun ix =>
          [StageEvent.moveStage (grid ix iy).1 (grid ix iy).2,
           StageEvent.acquirePixel ix iy]))
      (.ok (), pixelEvents ++ [park])

/-- C5 counterexample: a configuration whose target box exceeds the stage
range (`[−5e−3, 5e−3]` axes, 20 mm-wide FoV).  `acquire()` fails with
`OutOfRange` before any pixel, yet the claim's "does not move the stage"
is false as stated: the `finally` block still issues a stage move (the
park back to the center of the axis range). -/
theorem C5_counterexample :
    (runScanStage ⟨0, 0, 1, 1⟩ (2, 2) (1000, 1000) (1/50, 1/50)
        ⟨-1/200, 1/200, -1/200, 1/200⟩ 0 0).1
      = Except.error ScanStageError.outOfRange
    ∧ StageEvent.moveStage 0 0
        ∈ (runScanStage ⟨0, 0, 1, 1⟩ (2, 2) (1000, 1000) (1/50, 1/50)
            ⟨-1/200, 1/200, -1/200, 1/200⟩ 0 0).2 := by
  have hfalse : scanStageInRange ⟨-1/200, 1/200, -1/200, 1/200⟩
      (scanStageBox ⟨0, 0, 1, 1⟩ (2, 2) (1000, 1000) (1/50, 1/50) 0 0) = false := by
    simp [scanStageInRange, scanStageBox]
    norm_num
  have he : runScanStage ⟨0, 0, 1, 1⟩ (2, 2) (1000, 1000) (1/50, 1/50)
      ⟨-1/200, 1/200, -1/200, 1/200⟩ 0 0
      = (Except.error ScanStageError.outOfRange, [StageEvent.moveStage 0 0]) := by
    unfold runScanStage getScanStagePositions
    simp only [hfalse]
    norm_num
  rw [he]
  exact ⟨rfl, by simp⟩

/-- C5 amended: whenever the computed target box (stage Y inverted
relative to the ROI) does not lie fully within both axis ranges, the grid
computation fails with `OutOfRange`, no pixel is acquired and the stage is
never moved to a scan position — the only stage command on this path is
the final park back to the center of the axis range. -/
theorem C5_out_of_range (roi : ROI) (rep eshape : ℕ × ℕ) (epxs : ℚ × ℚ)
    (ax : StageAxes) (sposx sposy : ℚ)
    (h : scanStageInRange ax (scanStageBox roi rep eshape epxs sposx sposy)
          = false) :
    (runScanStage roi rep eshape epxs ax sposx sposy).1
        = Except.error ScanStageError.outOfRange
    ∧ (∀ ix iy, StageEvent.acquirePixel ix iy
        ∉ (runScanStage roi rep eshape epxs ax sposx sposy).2)
    ∧ (runScanStage roi rep eshape epxs ax sposx sposy).2
        = [StageEvent.moveStage ((ax.xlo + ax.xhi) / 2) ((ax.ylo + ax.yhi) / 2)] := by
  have he : runScanStage roi rep eshape epxs ax sposx sposy
      = (Except.error ScanStageError.outOfRange,
         [StageEvent.moveStage ((ax.xlo + ax.xhi) / 2) ((ax.ylo + ax.yhi) / 2)]) := by
    unfold runScanStage getScanStagePositions
    simp [h]
  rw [he]
  refine ⟨rfl, ?_, rfl⟩
  intro ix iy
  simp

/-- C5 amended witness: the out-of-range configuration of the
counterexample, via the amended theorem. -/
theorem C5_out_of_range_witness :
    (runScanStage ⟨0, 0, 1, 1⟩ (2, 2) (1000, 1000) (1/50, 1/50)
        ⟨-1/200, 1/200, -1/200, 1/200⟩ 0 0).2
      = [StageEvent.moveStage 0 0] := by
  have h := (C5_out_of_range ⟨0, 0, 1, 1⟩ (2, 2) (1000, 1000) (1/50, 1/50)
    ⟨-1/200, 1/200, -1/200, 1/200⟩ 0 0
    (by simp [scanStageInRange, scanStageBox]; norm_num)).2.2
  rw [h]
  norm_num

/-- Setting a VA whose hardware clips to a range `[lo, hi]` and reading it
back. -/
def clipRange (lo hi x : ℚ) : ℚ := max lo (min x hi)

/-- Embeds the dwell/frames computation of `ScannedRemoteTCStream._prepareHardware`:
per-frame dwell is `min(total_dwell, scanner max dwell)` (then written to
the scanner and read back), the number of frames is
`N = ceil(total_dwell / per_frame_dwell)`, and the per-frame dwell is
recomputed as `total_dwell / N`.  Returns (per-frame dwell, N). -/
def prepareHardware (totalDwell dtLo dtHi : ℚ) : ℚ × ℕ :=
  let pxDt := min totalDwell dtHi
  let pxDtHw := clipRange dtLo dtHi pxDt
  let nfr : ℕ := (Int.ceil (totalDwell / pxDtHw)).toNat
  (totalDwell / (nfr : ℚ), nfr)

/-- One frame pushed by the time-correlator detector: a 2-D integer image
(row-major list of rows) with its dwell-time metadata. -/
structure Frame where
  data : List (List ℕ)
  dwell : ℚ
  deriving DecidableEq

/-- numpy shape comparison of two row-major images. -/
def matShape (d : List (List ℕ)) : List ℕ := d.map List.length

/-- Embeds `data.astype(numpy.uint32)`: every element is reduced modulo
`2^32`. -/
def toUInt32Mat (d : List (List ℕ)) : List (List ℕ) :=
  d.map (fun row => row.map (fun v => v % 2 ^ 32))

/-- Element-wise addition of two images of equal shape in numpy `uint32`
arithmetic (`raw[0] += data` wraps modulo `2^32`). -/
def addMat (a b : List (List ℕ)) : List (List ℕ) :=
  List.zipWith (List.zipWith (fun x y => (x + y) % 2 ^ 32)) a b

/-- One step of `ScannedRemoteTCStream._frameThread`: the first frame
initialises `raw` (`data.astype(numpy.uint32)`); a subsequent frame of
matching shape is `astype`-converted and added element-wise in `uint32`
arithmetic with its dwell-time metadata summed; a mismatched shape is
reported and dropped. -/
def frameStep : Option Frame → Frame → Option Frame
  | none, f => some ⟨toUInt32Mat f.data, f.dwell⟩
  | some acc, f =>
      if matShape acc.data = matShape f.data then
        some ⟨addMat acc.data (toUInt32Mat f.data), acc.dwell + f.dwell⟩
      else some acc

/-- Accumulation of a queue of frames by the frame thread. -/
def accumFrames (fs : List Frame) : Option Frame := fs.foldl frameStep none

/-- Constant image of shape rows × cols. -/
def constMat (rows cols v : ℕ) : List (List ℕ) :=
  List.replicate rows (List.replicate cols v)

lemma toUInt32Mat_const (rows cols v : ℕ) :
    toUInt32Mat (constMat rows cols v) = constMat rows cols (v % 2 ^ 32) := by
  unfold toUInt32Mat constMat
  simp

lemma addMat_const (rows cols a b : ℕ) :
    addMat (constMat rows cols a) (constMat rows cols b)
      = constMat rows cols ((a + b) % 2 ^ 32) := by
  unfold addMat constMat
  rw [List.zipWith_replicate, List.zipWith_replicate]
  simp

lemma matShape_const (rows cols v : ℕ) :
    matShape (constMat rows cols v) = List.replicate rows cols := by
  unfold matShape constMat
  simp

lemma accumFrames_const_aux (rows cols : ℕ) (w : ℚ) (k m : ℕ) (d : ℚ) :
    List.foldl frameStep (some ⟨constMat rows cols (m % 2 ^ 32), d⟩)
        (List.replicate k ⟨constMat rows cols 1, w⟩)
      = some ⟨constMat rows cols ((m + k) % 2 ^ 32), d + k * w⟩ := by
  induction k generalizing m d with
  | zero => simp
  | succ k ih =>
      rw [List.replicate_succ, List.foldl_cons]
      have hstep : frameStep (some ⟨constMat rows cols (m % 2 ^ 32), d⟩)
          ⟨constMat rows cols 1, w⟩
          = some ⟨constMat rows cols ((m + 1) % 2 ^ 32), d + w⟩ := by
        have hval : (m % 2 ^ 32 + 1 % 2 ^ 32) % 2 ^ 32 = (m + 1) % 2 ^ 32 := by
          omega
        simp [frameStep, matShape_const, toUInt32Mat_const, addMat_const, hval]
      rw [hstep, ih]
      simp only [Option.some.injEq, Frame.mk.injEq]
      constructor
      · rw [show m + 1 + k = m + (k + 1) from by omega]
      · push_cast
        ring

/-- Accumulating `k + 1` constant-1 frames each carrying dwell `w`: the
pixel value wraps in `uint32`, the dwell metadata is the plain sum. -/
lemma accumFrames_const (rows cols k : ℕ) (w : ℚ) :
    accumFrames (List.replicate (k + 1) ⟨constMat rows cols 1, w⟩)
      = some ⟨constMat rows cols ((k + 1) % 2 ^ 32), w + (k : ℚ) * w⟩ := by
  unfold accumFrames
  rw [List.replicate_succ, List.foldl_cons]
  have hfirst : frameStep none ⟨constMat rows cols 1, w⟩
      = some ⟨constMat rows cols (1 % 2 ^ 32), w⟩ := by
    simp [frameStep, toUInt32Mat_const]
  rw [hfirst, accumFrames_const_aux, Nat.add_comm 1 k]

/-- C8 counterexample: the accumulator works in numpy `uint32`, which
wraps modulo `2^32`: accumulating `N = 2^32` constant-1 frames (each
carrying dwell `total/N` with `total = 2 s`) yields pixel value 0, not
`N` — the claim's "pixel value N" is false of the wrapping code at
`N = 2^32`. -/
theorem C8_counterexample :
    accumFrames (List.replicate (2 ^ 32) ⟨constMat 1 1 1, 2 / (2 ^ 32 : ℚ)⟩)
      = some ⟨constMat 1 1 0, 2⟩
    ∧ accumFrames (List.replicate (2 ^ 32) ⟨constMat 1 1 1, 2 / (2 ^ 32 : ℚ)⟩)
      ≠ some ⟨constMat 1 1 (2 ^ 32), 2⟩ := by
  have h := accumFrames_const 1 1 (2 ^ 32 - 1) (2 / (2 ^ 32 : ℚ))
  rw [show (2 ^ 32 - 1) + 1 = 2 ^ 32 from by norm_num] at h
  have hv : (2 ^ 32) % 2 ^ 32 = 0 := by omega
  have hd : 2 / (2 ^ 32 : ℚ) + ((2 ^ 32 - 1 : ℕ) : ℚ) * (2 / (2 ^ 32 : ℚ)) = 2 := by
    push_cast
    norm_num
  rw [hv, hd] at h
  refine ⟨h, ?_⟩
  rw [h]
  simp [constMat]

/-- C8 amended: (i) with a feasible dwell range (`0 < lo ≤ total_dwell`,
`lo ≤ hi`), the per-frame dwell is first chosen as
`min(total_dwell, max_dwell)`, the frame count is
`N = ceil(total_dwell / per_frame_dwell)`, and the final per-frame dwell
is `total_dwell / N`; (ii) accumulating `N ≥ 1` constant-1 frames, each
carrying dwell-time `total_dwell / N`, yields the constant image of value
`N mod 2^32` (the accumulator adds in numpy `uint32`) with total
dwell-time metadata exactly `total_dwell`; (iii) whenever `N < 2^32` the
pixel value is therefore exactly `N`. -/
theorem C8_stream_accumulation (totalDwell dtLo dtHi : ℚ)
    (hlo : 0 < dtLo) (hlt : dtLo ≤ totalDwell) (hhi : dtLo ≤ dtHi) :
    (prepareHardware totalDwell dtLo dtHi
        = (totalDwell / ((Int.ceil (totalDwell / min totalDwell dtHi)).toNat : ℚ),
           (Int.ceil (totalDwell / min totalDwell dtHi)).toNat))
    ∧ (∀ rows cols N : ℕ, 0 < N →
        accumFrames (List.replicate N ⟨constMat rows cols 1, totalDwell / (N : ℚ)⟩)
          = some ⟨constMat rows cols (N % 2 ^ 32), totalDwell⟩)
    ∧ (∀ rows cols N : ℕ, 0 < N → N < 2 ^ 32 →
        accumFrames (List.replicate N ⟨constMat rows cols 1, totalDwell / (N : ℚ)⟩)
          = some ⟨constMat rows cols N, totalDwell⟩) := by
  have hacc : ∀ rows cols N : ℕ, 0 < N →
      accumFrames (List.replicate N ⟨constMat rows cols 1, totalDwell / (N : ℚ)⟩)
        = some ⟨constMat rows cols (N % 2 ^ 32), totalDwell⟩ := by
    intro rows cols N hN
    obtain ⟨k, rfl⟩ := Nat.exists_eq_succ_of_ne_zero hN.ne'
    rw [accumFrames_const]
    have hk : ((k + 1 : ℕ) : ℚ) ≠ 0 := Nat.cast_ne_zero.mpr (Nat.succ_ne_zero k)
    have hd : totalDwell / ((k + 1 : ℕ) : ℚ)
        + (k : ℚ) * (totalDwell / ((k + 1 : ℕ) : ℚ)) = totalDwell := by
      field_simp
      push_cast
      ring
    rw [hd]
  refine ⟨?_, hacc, ?_⟩
  · have h1 : dtLo ≤ min totalDwell dtHi := le_min hlt hhi
    simp only [prepareHardware, clipRange]
    rw [min_assoc, min_self, max_eq_right h1]
  · intro rows cols N hN hN32
    rw [hacc rows cols N hN, Nat.mod_eq_of_lt hN32]

/-- C8 witness: `total_dwell = 2 s`, scanner dwell range `[1 µs, 0.5 s]`:
4 frames of 0.5 s each; accumulating 4 constant-1 frames of a 2×3 image
gives value 4 (no wrap, `4 < 2^32`) and dwell 2 s. -/
theorem C8_stream_accumulation_witness :
    prepareHardware 2 (1/1000000) (1/2) = (1/2, 4)
    ∧ accumFrames (List.replicate 4 ⟨constMat 2 3 1, 2 / ((4 : ℕ) : ℚ)⟩)
        = some ⟨constMat 2 3 4, 2⟩ := by
  have h := C8_stream_accumulation 2 (1/1000000) (1/2)
    (by norm_num) (by norm_num) (by norm_num)
  constructor
  · rw [h.1]
    norm_num [Prod.ext_iff]
    refine ⟨?_, rfl⟩
    rw [show Int.toNat 4 = 4 from rfl]
    norm_num
  · exact h.2.2 2 3 4 (by norm_num) (by norm_num)

end OdemisSync
